import Mathlib

/-!
Verification development for the praxis parameterization/instantiation core
(`praxis/pax_fiddle.py` and `praxis/base_layer.py`).

The Python code is shallowly embedded: config trees become an explicit node
store (so that object identity / DAG sharing is expressible), the memoized
`build` traversal becomes a fuel-indexed state-passing function, and the
various pure helpers (`get_fan_in_fan_out`, summary-key computation, the
base-hparams copy-down, the theta accessor, the JaxContext stack and the
shared-layer cache) become Lean functions over the same data.
-/

namespace Praxis

/-! ### Model of `pax_fiddle.build` (pax_fiddle.py, lines 246-283)

A config graph is a store of `Buildable` nodes addressed by numeric ids;
an argument value is either an atomic leaf or a reference to a node in the
store.  Ids play the role of Python object identity, which is what
`daglish.MemoizedTraversal` memoizes on.  Each node records its callable,
its keyword arguments (each with its `DoNotBuild` tag status, from
`value.__argument_tags__`), and whether its `__build__` call raises
(`TaggedValueNotFilledError` or a generic exception, identified by a code).
-/

/-- A reference appearing as an argument of a `Buildable`: an atomic leaf
value or a pointer to another `Buildable` node in the store. -/
inductive Ref where
  | leaf (n : Nat)
  | node (i : Nat)
deriving DecidableEq

/-- What a node's `__build__` does when invoked: succeed, raise
`TaggedValueNotFilledError`, or raise a generic exception with code `c`. -/
inductive BuildRaise where
  | taggedNotFilled
  | exc (c : Nat)
deriving DecidableEq

/-- One keyword argument of a `Buildable`: its name, its value, and whether
the `DoNotBuild` tag is present in `__argument_tags__[key]`. -/
structure Arg where
  key : String
  ref : Ref
  tagged : Bool
deriving DecidableEq

/-- A `Buildable` node: `fdl.get_callable` (abstracted to a code),
`__arguments__` in iteration order, and the behaviour of `__build__`. -/
structure BNode where
  callable : Nat
  args : List Arg
  fails : Option BuildRaise
deriving DecidableEq

/-- The config graph: node `i` is `store.get? i`. -/
def Store := List BNode

/-- The result of building: either a raw leaf value, an unbuilt config
passed through verbatim (a `DoNotBuild`-tagged `Buildable`), or a real
object `built c args` produced by calling callable `c` with keyword
arguments `args`. -/
inductive Obj where
  | leaf (n : Nat)
  | unbuilt (i : Nat)
  | built (c : Nat) (args : List (String × Obj))

/-- Errors propagating out of `build`: `TaggedValueNotFilledError` is
re-raised unchanged; any other exception is wrapped in `fdl.BuildError`
carrying the `daglish` path from the root and the original exception. -/
inductive BErr where
  | taggedNotFilled
  | buildError (path : List String) (c : Nat)

/-- State of the memoized traversal: the memo table (Python object id ->
built object) and the order in which node builds completed (used to state
"each node is built at most once"). -/
structure BState where
  memo : List (Nat × Obj)
  log : List Nat

/-- The empty traversal state at `daglish.MemoizedTraversal.begin`. -/
def initState : BState := ⟨[], []⟩

/-- Memo lookup by node id. -/
def lookupMemo (s : BState) (i : Nat) : Option Obj :=
  s.memo.lookup i

/-- Record a completed build of node `i` in the memo and the log. -/
def pushMemo (s : BState) (i : Nat) (o : Obj) : BState :=
  ⟨(i, o) :: s.memo, s.log ++ [i]⟩

/-- The value of an argument that is kept as-is (the `DoNotBuild` branch of
`_build`): a leaf stays a leaf, a `Buildable` stays an unbuilt config. -/
def asIs : Ref → Obj
  | Ref.leaf n => Obj.leaf n
  | Ref.node i => Obj.unbuilt i

/-- The argument loop of `_build` (`for key, sub_value in
value.__arguments__.items()`), parameterized by the recursive traversal
call `bf` used for untagged arguments.  Returns `none` on fuel exhaustion
of a nested call, `some (Except.error e)` when a nested build raises, and
`some (Except.ok (vals, s'))` on success. -/
def buildArgsWith
    (bf : Ref → List String → BState → Option (Except BErr (Obj × BState))) :
    List Arg → List String → BState →
    Option (Except BErr (List (String × Obj) × BState))
  | [], _, s => some (Except.ok ([], s))
  | a :: rest, path, s =>
    if a.tagged then
      match buildArgsWith bf rest path s with
      | none => none
      | some (Except.error e) => some (Except.error e)
      | some (Except.ok (vals, s1)) =>
        some (Except.ok ((a.key, asIs a.ref) :: vals, s1))
    else
      match bf a.ref (path ++ [a.key]) s with
      | none => none
      | some (Except.error e) => some (Except.error e)
      | some (Except.ok (o, s1)) =>
        match buildArgsWith bf rest path s1 with
        | none => none
        | some (Except.error e) => some (Except.error e)
        | some (Except.ok (vals, s2)) =>
          some (Except.ok ((a.key, o) :: vals, s2))

/-- The `_build` traversal of `pax_fiddle.build`, with fuel making the
recursion explicit (`none` = fuel exhausted, which on an acyclic graph
never happens for sufficient fuel).  For a `Buildable`: a memo hit returns
the cached object; otherwise each `DoNotBuild`-tagged argument is kept
as-is and every other argument is built recursively, then `__build__` is
invoked: `TaggedValueNotFilledError` propagates unchanged, any other
exception is wrapped into a `BuildError` carrying the path from the root,
and on success the result is memoized. -/
def buildRef (store : Store) :
    Nat → Ref → List String → BState → Option (Except BErr (Obj × BState))
  | 0, _, _, _ => none
  | Nat.succ _, Ref.leaf n, _, s => some (Except.ok (Obj.leaf n, s))
  | Nat.succ fuel, Ref.node i, path, s =>
    match lookupMemo s i with
    | some o => some (Except.ok (o, s))
    | none =>
      match store.get? i with
      | none => none
      | some nd =>
        match buildArgsWith (buildRef store fuel) nd.args path s with
        | none => none
        | some (Except.error e) => some (Except.error e)
        | some (Except.ok (vals, s1)) =>
          match nd.fails with
          | some BuildRaise.taggedNotFilled =>
            some (Except.error BErr.taggedNotFilled)
          | some (BuildRaise.exc c) =>
            some (Except.error (BErr.buildError path c))
          | none =>
            some (Except.ok
              (Obj.built nd.callable vals, pushMemo s1 i (Obj.built nd.callable vals)))

/-- Entry point corresponding to `pax_fiddle.build(buildable)`: traversal
from the root with an empty memo and the root path. -/
def build (store : Store) (fuel : Nat) (r : Ref) :
    Option (Except BErr (Obj × BState)) :=
  buildRef store fuel r [] initState

/-! ### Model of `JaxContext` (base_layer.py, lines 984-1094)

The thread's context stack `_JaxContextStack.stack` becomes an explicit
list (top = head).  A context frame carries the per-frame shared-layer
cache, a map keyed by `(root_scope, shared_layer_id)`.  Layers and wrapper
layers are abstracted to distinct numeric identities drawn from a fresh
counter, which is what "the same underlying layer object" means. -/

/-- Layer configuration as seen by `instantiate_layer` /
`compatible_hparams`: the `name`, the `shared_weight_layer_id`, and an
abstract payload standing for every other configurable field. -/
structure LayerCfg where
  name : String
  sharedId : Option String
  payload : Nat
deriving DecidableEq

/-- `compatible_hparams` (base_layer.py, lines 2348-2374): clone both
configs, clear their `name`s, compare for structural equality. -/
def compatible_hparams (p1 p2 : LayerCfg) : Prop :=
  { p1 with name := "" } = { p2 with name := "" }

instance (p1 p2 : LayerCfg) : Decidable (compatible_hparams p1 p2) := by
  unfold compatible_hparams
  infer_instance

/-- `_WrapperLayer` as registered in the cache: its child layer `cld` and
its own identity. -/
structure WrapperLayer where
  cld : Nat
  uid : Nat
deriving DecidableEq

/-- `_SharedLayerCacheEntry(layer, hparams, wrapper)`. -/
structure SharedLayerCacheEntry where
  layer : Nat
  hparams : LayerCfg
  wrapper : WrapperLayer
deriving DecidableEq

/-- The shared-layer cache of one `JaxContext`
(`_root_scope_to_shared_layers_map`), flattened to association pairs keyed
by `(root_scope, shared_layer_id)`; the `defaultdict` returns `None` for a
missing key. -/
abbrev SharedMap := List ((Nat × String) × SharedLayerCacheEntry)

/-- `JaxContext.lookup_shared_layer(root_scope, shared_layer_id)`. -/
def lookup_shared_layer (m : SharedMap) (scope : Nat) (id : String) :
    Option SharedLayerCacheEntry :=
  List.lookup (scope, id) m

/-- `JaxContext.set_shared_layer(root_scope, shared_layer_id, wrapper,
layer_hparams)`: asserts no entry exists for the key (`none` = the
assertion fails), then stores `(layer=wrapper.cld, hparams=clone, wrapper)`. -/
def set_shared_layer (m : SharedMap) (scope : Nat) (id : String)
    (wrapper : WrapperLayer) (layer_hparams : LayerCfg) : Option SharedMap :=
  match lookup_shared_layer m scope id with
  | some _ => none
  | none => some (((scope, id), ⟨wrapper.cld, layer_hparams, wrapper⟩) :: m)

/-- State threaded through layer instantiation: the current context's
shared-layer cache and a counter supplying fresh object identities. -/
structure InstState where
  ctx : SharedMap
  fresh : Nat
deriving DecidableEq

/-- `instantiate_layer(layer_p, scope)` (base_layer.py, lines 1193-1236).
With a `shared_weight_layer_id`: a cache hit asserts the cached hparams
are compatible with the requested config and reuses the cached layer; a
miss wraps a clone (with the shared id cleared) in a `_WrapperLayer`,
instantiates it (fresh identities for the child and the wrapper), and
registers it.  Without a shared id the config is simply instantiated.
`none` models an assertion failure. -/
def instantiate_layer (layer_p : LayerCfg) (scope : Nat) (s : InstState) :
    Option (Nat × InstState) :=
  match layer_p.sharedId with
  | some id =>
    match lookup_shared_layer s.ctx scope id with
    | some pre =>
      if compatible_hparams pre.hparams layer_p then some (pre.layer, s)
      else none
    | none =>
      let wrapper : WrapperLayer := ⟨s.fresh, s.fresh + 1⟩
      match set_shared_layer s.ctx scope id wrapper layer_p with
      | none => none
      | some ctx' => some (wrapper.cld, ⟨ctx', s.fresh + 2⟩)
  | none => some (s.fresh, ⟨s.ctx, s.fresh + 1⟩)

/-! ### The context stack and scoped acquisition (base_layer.py, 1037-1053) -/

/-- `JaxContext.__enter__`: push onto the thread's stack.  Contexts are
identified by a numeric id (Python object identity for the `is` check). -/
def enterContext (c : Nat) (stack : List Nat) : List Nat :=
  c :: stack

/-- `JaxContext.__exit__`: assert the stack is non-empty and its top `is`
this context, then pop.  `none` models an assertion failure. -/
def exitContext (c : Nat) (stack : List Nat) : Option (List Nat) :=
  match stack with
  | [] => none
  | t :: rest => if t = c then some rest else none

/-- `JaxContext.has_context()`. -/
def has_context (stack : List Nat) : Bool :=
  stack.length > 0

/-- A `with JaxContext(...)` block: enter, run the body (which observes
and may transform the stack, and reports whether it raised), then exit.
The body runs on the pushed stack; `__exit__` runs whether or not the body
raised. -/
def withContext (c : Nat) (body : List Nat → Bool × List Nat)
    (stack : List Nat) : Option (Bool × List Nat) :=
  let pushed := enterContext c stack
  let res := body pushed
  match exitContext c res.2 with
  | none => none
  | some popped => some (res.1, popped)

/-! ### Model of `BaseLayer._copy_base_hparams` (base_layer.py, 1508-1570)

A `pax_fiddle.Config` field that tracks set-versus-unset state (fiddle's
`__arguments__`) is an `Option`: `none` means the argument is unset and
reads fall back to the dataclass default (`dtype` defaults to `float32`).
`fprop_dtype`, `skip_lp_regularization` and the mesh fields default to
`None`, so for those the getter value itself is stored. -/

/-- The dtypes relevant to the model (`jnp` dtypes). -/
inductive DT where
  | float32
  | bfloat16
  | float16
  | int32
deriving DecidableEq

/-- `jnp.issubdtype(x, jnp.floating)`. -/
def DT.floating : DT → Bool
  | DT.float32 => true
  | DT.bfloat16 => true
  | DT.float16 => true
  | DT.int32 => false

/-- `WeightInit(method, scale)` (base_layer.py, line 352).  The float
`scale` is represented in exact fixed-point units of `1e-7`, which
expresses the `abs(... ) < 1e-7` default-detection test precisely. -/
structure WeightInit where
  method : String
  scaleE7 : Int
deriving DecidableEq

/-- `default_param_init()`: `WeightInit.Xavier(1.000001)`, the signature
value marking an initializer the user never picked explicitly
(`1.000001 = 10000010e-7`). -/
def default_param_init : WeightInit :=
  ⟨"xavier", 10000010⟩

/-- `is_default_param_init(p)` (base_layer.py, line 477):
`p.method == 'xavier' and abs(p.scale - 1.000001) < 1e-7`. -/
def is_default_param_init (p : WeightInit) : Prop :=
  p.method = "xavier" ∧ |p.scaleE7 - 10000010| < 1

instance (p : WeightInit) : Decidable (is_default_param_init p) := by
  unfold is_default_param_init
  infer_instance

/-- The inherited base fields of a `BaseLayer` config (base_layer.py,
lines 1436-1444): `dtype` (dataclass default `jnp.float32`) is stored as
set-or-unset; the other fields default to `None`, represented directly by
their getter values. -/
structure BaseFields where
  dtype : Option DT
  fpropDtype : Option DT
  skipLp : Option Bool
  iciMesh : Option (List Nat)
  dcnMesh : Option (List Nat)
  meshAxisNames : Option (List String)
  paramsInit : WeightInit
deriving DecidableEq

/-- The getter value of `cfg.dtype`: the set value, else the dataclass
default `jnp.float32`. -/
def BaseFields.dtypeVal (f : BaseFields) : DT :=
  f.dtype.getD DT.float32

/-- `BaseLayer._copy_base_hparams(source, target)` (base_layer.py, lines
1508-1530): each inheritable field still holding its default sentinel
value is overwritten with the source's value (`params_init` only when the
target still has the default initializer).  The Python method is a
sequence of guarded single-field assignments; since each guard reads only
the field its assignment writes, the sequence equals this parallel record
update. -/
def copy_base_hparams_fields (src tgt : BaseFields) : BaseFields where
  dtype := if tgt.dtypeVal = DT.float32 then some src.dtypeVal else tgt.dtype
  fpropDtype := if tgt.fpropDtype = none then src.fpropDtype else tgt.fpropDtype
  skipLp := if tgt.skipLp = none then src.skipLp else tgt.skipLp
  iciMesh := if tgt.iciMesh = none then src.iciMesh else tgt.iciMesh
  dcnMesh := if tgt.dcnMesh = none then src.dcnMesh else tgt.dcnMesh
  meshAxisNames := if tgt.meshAxisNames = none then src.meshAxisNames
    else tgt.meshAxisNames
  paramsInit := if is_default_param_init tgt.paramsInit then src.paramsInit
    else tgt.paramsInit

/-- A `BaseLayer` config subtree as traversed by
`_copy_base_params_to_fdl_config`: its name, its base fields, and its
config-valued arguments, each with its `DoNotBuild` tag status. -/
inductive LayerTree where
  | node (name : String) (fields : BaseFields)
      (children : List (String × Bool × LayerTree))

/-- The `visit`/`daglish` traversal of `_copy_base_params_to_fdl_config`
(base_layer.py, lines 1532-1570): copy the base params from the nearest
enclosing `BaseLayer` config into this config (mutating it first, so
descendants inherit the updated values), then recurse into arguments that
are not tagged `DoNotBuild`. -/
def copy_down (src : BaseFields) : LayerTree → LayerTree
  | LayerTree.node nm f cs =>
    let f' := copy_base_hparams_fields src f
    LayerTree.node nm f' (cs.attach.map (fun c =>
      if c.1.2.1 then c.1 else (c.1.1, c.1.2.1, copy_down f' c.1.2.2)))
decreasing_by
  simp_wf
  rcases c with ⟨⟨k, b, t⟩, hm⟩
  have := List.sizeOf_lt_of_mem hm
  simp at this ⊢
  omega

/-- `BaseLayer._create_child(name, params)` (base_layer.py, lines
2203-2224): clone the child config, copy the base hparams down from the
parent, then set the child's `name`. -/
def create_child (parent : BaseFields) (name : String) (params : LayerTree) :
    LayerTree :=
  match copy_down parent params with
  | LayerTree.node _ f cs => LayerTree.node name f cs

/-! ### Model of `get_fan_in_fan_out` (base_layer.py, lines 547-581) -/

/-- Python sequence indexing: negative indices count from the end. -/
def pyIdx (n : Nat) (i : Int) : Int :=
  if i < 0 then i + n else i

/-- `shape[i]` with Python indexing; `none` models an `IndexError`. -/
def pyGet (shape : List Nat) (i : Int) : Option Nat :=
  let j := pyIdx shape.length i
  if j < 0 then none else shape.get? j.toNat

/-- `for i in axes: size *= shape[i]` (an invalid axis is an error). -/
def prodAxes (shape : List Nat) : List Int → Option Nat
  | [] => some 1
  | i :: rest =>
    match pyGet shape i, prodAxes shape rest with
    | some d, some p => some (d * p)
    | _, _ => none

/-- `get_fan_in_fan_out(shape, fan_in_axes, fan_out_axes)` (base_layer.py,
lines 547-581).  `if not shape` returns `(None, None)` (which makes the
subsequent `len(shape) < 1` branch dead code); a 1-D shape gives
`(dim0, dim0)`; otherwise, when no axes are given, fan-in axis `[-2]`,
fan-out axis `[-1]` and all leading axes as receptive field; when both are
given, no receptive field; when exactly one is given, the assertion fails
(`none`). -/
def get_fan_in_fan_out (shape : List Nat)
    (fan_in_axes fan_out_axes : Option (List Int)) :
    Option (Option Nat × Option Nat) :=
  if shape = [] then some (none, none)
  else if shape.length = 1 then
    match shape with
    | d :: _ => some (some d, some d)
    | [] => none
  else
    match fan_in_axes, fan_out_axes with
    | none, none =>
      let rf := (List.range (shape.length - 2)).map Int.ofNat
      match prodAxes shape rf, prodAxes shape [(-2 : Int)],
          prodAxes shape [(-1 : Int)] with
      | some rfs, some fi, some fo => some (some (fi * rfs), some (fo * rfs))
      | _, _, _ => none
    | some fia, some foa =>
      match prodAxes shape fia, prodAxes shape foa with
      | some fi, some fo => some (some (fi * 1), some (fo * 1))
      | _, _ => none
    | _, _ => none

/-! ### Model of the summary taxonomy and summary keys (base_layer.py,
lines 882-968 and 1894-1913)

Summary names and keys are `List Char` (Python strings); summary tensors
are abstracted to opaque payloads (the image/audio batch-dimension
handling is not modelled — the claims below concern scalar summaries and
key computation only). -/

/-- `SummaryType` members, in class-body (= `Enum` iteration) order. -/
inductive SummaryType where
  | SCALAR
  | IMAGE
  | TEXT
  | AUDIO
  | VIDEO
  | HISTOGRAM
  | AGGREGATE_SCALAR
  | AGGREGATE_IMAGE
deriving DecidableEq

/-- Iteration order of `for t in SummaryType` (Python `Enum` definition
order). -/
def SummaryType.members : List SummaryType :=
  [SummaryType.SCALAR, SummaryType.IMAGE, SummaryType.TEXT,
   SummaryType.AUDIO, SummaryType.VIDEO, SummaryType.HISTOGRAM,
   SummaryType.AGGREGATE_SCALAR, SummaryType.AGGREGATE_IMAGE]

/-- `t.name.lower()`. -/
def SummaryType.nameLower : SummaryType → List Char
  | SummaryType.SCALAR => "scalar".toList
  | SummaryType.IMAGE => "image".toList
  | SummaryType.TEXT => "text".toList
  | SummaryType.AUDIO => "audio".toList
  | SummaryType.VIDEO => "video".toList
  | SummaryType.HISTOGRAM => "histogram".toList
  | SummaryType.AGGREGATE_SCALAR => "aggregate_scalar".toList
  | SummaryType.AGGREGATE_IMAGE => "aggregate_image".toList

/-- `'_' + t.name.lower()`, the string tested by the scanning loops. -/
def typeSuffix (t : SummaryType) : List Char :=
  '_' :: t.nameLower

/-- `get_summary_base_type` (base_layer.py, lines 904-909). -/
def get_summary_base_type : SummaryType → SummaryType
  | SummaryType.AGGREGATE_SCALAR => SummaryType.SCALAR
  | SummaryType.AGGREGATE_IMAGE => SummaryType.IMAGE
  | t => t

/-- `get_summary_type_suffix` (base_layer.py, lines 912-913):
`'_' + get_summary_base_type(t).name.lower()`. -/
def get_summary_type_suffix (t : SummaryType) : List Char :=
  typeSuffix (get_summary_base_type t)

/-- `get_summary_type_from_key` (base_layer.py, lines 916-920): the first
member (in iteration order) whose suffix the key ends with; `none` models
the `ValueError`. -/
def get_summary_type_from_key (key : List Char) : Option SummaryType :=
  SummaryType.members.find? (fun t => (typeSuffix t).isSuffixOf key)

/-- `trim_summary_type_from_key` (base_layer.py, lines 923-928): strip the
suffix of the first matching member; `none` models the `ValueError`. -/
def trim_summary_type_from_key (key : List Char) : Option (List Char) :=
  match SummaryType.members.find? (fun t => (typeSuffix t).isSuffixOf key) with
  | some t => some (key.take (key.length - (typeSuffix t).length))
  | none => none

/-- The decimal rendering `str(n)` used by the disambiguation loops. -/
def natChars (n : Nat) : List Char :=
  (Nat.repr n).toList

/-- `full_name` after `n` collision iterations of a scanning loop whose
candidate generator is `cand` (`cand 0` is the initial candidate). -/
def scanFrom (taken : List Char → Bool) (cand : Nat → List Char) :
    Nat → Nat → List Char
  | 0, n => cand n
  | fuel + 1, n => if taken (cand n) then scanFrom taken cand fuel (n + 1)
      else cand n

/-- Python `dict` assignment `d[k] = v`. -/
def dictInsert (d : List (List Char × Nat)) (k : List Char) (v : Nat) :
    List (List Char × Nat) :=
  if (d.lookup k).isSome then
    d.map (fun kv => if kv.1 = k then (k, v) else kv)
  else d ++ [(k, v)]

/-- `_SummaryDict.add_summary` (base_layer.py, lines 942-968), key logic:
the initial candidate is `name + suffix` and collisions insert the counter
between name and suffix, scanning the dict for the fully-suffixed name. -/
def summary_dict_add (d : List (List Char × Nat)) (name : List Char)
    (t : SummaryType) (v : Nat) : List (List Char × Nat) :=
  let sfx := get_summary_type_suffix t
  let full := scanFrom (fun k => (d.lookup k).isSome)
    (fun n => if n = 0 then name ++ sfx else name ++ natChars n ++ sfx)
    (d.length + 1) 0
  dictInsert d full v

/-- `BaseLayer.add_summary` (base_layer.py, lines 1894-1913), key logic:
the scanning loop checks `has_variable(SUMMARIES, full_name)` for the
*unsuffixed* candidate (`name`, `name1`, ...) and the type suffix is
appended only after the loop; the value is then sown under the suffixed
key with an overwriting reduce function. -/
def layer_add_summary (vars : List (List Char × Nat)) (name : List Char)
    (t : SummaryType) (v : Nat) : List (List Char × Nat) :=
  let base := scanFrom (fun k => (vars.lookup k).isSome)
    (fun n => if n = 0 then name else name ++ natChars n)
    (vars.length + 1) 0
  let full := base ++ get_summary_type_suffix t
  dictInsert vars full v

/-! ### Model of the `theta` accessor (base_layer.py, lines 1146-1177,
180-183 and 2234-2246) -/

/-- A tensor: its dtype and an opaque identity for its values. -/
structure Tensor where
  dtype : DT
  uid : Nat
deriving DecidableEq

/-- The collections entry `WeightHParamsCollection.
DISALLOW_BFLOAT16_CONVERSION`. -/
def DISALLOW_BFLOAT16_CONVERSION : String :=
  "_disallow_bfloat16_conversion"

/-- The slice of `WeightHParams` the theta accessor consults. -/
structure WeightHParams where
  collections : List String
deriving DecidableEq

/-- `var_disallow_bfloat16_conversion` (base_layer.py, lines 180-183). -/
def var_disallow_bfloat16_conversion (w : WeightHParams) : Bool :=
  decide (DISALLOW_BFLOAT16_CONVERSION ∈ w.collections)

/-- `BaseLayer._cast_to_fprop_dtype` (base_layer.py, lines 2234-2246) on a
single tensor: floating tensors with a different dtype are cast to
`fprop_dtype`; everything else is returned unchanged. -/
def cast_to_fprop_dtype (fprop : DT) (x : Tensor) : Tensor :=
  if fprop ≠ x.dtype ∧ x.dtype.floating = true then { x with dtype := fprop }
  else x

/-- The slice of a `BaseLayer` the `Theta` accessor reads: setup state,
the trainable (`'params'`) collection, the private weight hparams, and the
configured `fprop_dtype`. -/
structure ThetaModule where
  setupDone : Bool
  params : List (String × Tensor)
  weight_hparams : List (String × WeightHParams)
  fprop_dtype : DT
deriving DecidableEq

/-- `BaseLayer._try_setup` as observable here: the layer becomes set up
(idempotent). -/
def try_setup (m : ThetaModule) : ThetaModule :=
  { m with setupDone := true }

/-- `Theta.__getattr__` / `Theta.__getitem__` (base_layer.py, lines
1146-1177): trigger setup, fail descriptively when no trainable variable
named `k` exists, read the raw tensor, and return it uncast when
`fprop_dtype == jnp.bfloat16` and the variable's hparams disallow bfloat16
conversion, otherwise cast it via `_cast_to_fprop_dtype`. -/
def theta_get (m : ThetaModule) (k : String) :
    ThetaModule × Except String Tensor :=
  let m1 := try_setup m
  match m1.params.lookup k with
  | none => (m1, Except.error ("Module has no theta " ++ k ++ " defined."))
  | some v =>
    let wh := (m1.weight_hparams.lookup k).getD ⟨[]⟩
    if m1.fprop_dtype = DT.bfloat16 ∧ var_disallow_bfloat16_conversion wh = true
    then (m1, Except.ok v)
    else (m1, Except.ok (cast_to_fprop_dtype m1.fprop_dtype v))

/-! ### Invariants of the memoized traversal -/

/-- Traversal-state sanity: the log of completed builds has no duplicates
and the memo holds exactly the logged ids. -/
def Good (s : BState) : Prop :=
  s.log.Nodup ∧ ∀ j, (lookupMemo s j).isSome ↔ j ∈ s.log

/-- The memo only grows during the traversal. -/
def MemoLe (s s' : BState) : Prop :=
  ∀ j v, lookupMemo s j = some v → lookupMemo s' j = some v

/-- Upper bound (exclusive) on the node ids a traversal of `r` can build. -/
def refBound : Ref → Nat
  | Ref.leaf _ => 0
  | Ref.node i => i + 1

/-- Upper bound on node ids built while processing one argument: tagged
arguments are never built. -/
def argBound (a : Arg) : Nat :=
  if a.tagged then 0 else refBound a.ref

/-- Upper bound on node ids built while processing an argument list. -/
def argsBound : List Arg → Nat
  | [] => 0
  | a :: rest => max (argBound a) (argsBound rest)

/-- An argument of node `i` is DAG-ordered when every untagged reference
points to a node with a strictly smaller id. -/
def argDagOk (i : Nat) (a : Arg) : Bool :=
  match a.ref with
  | Ref.node j => a.tagged || decide (j < i)
  | Ref.leaf _ => true

/-- All arguments of node `i` are DAG-ordered. -/
def nodeDagOk (i : Nat) (nd : BNode) : Bool :=
  nd.args.all (argDagOk i)

/-- DAG-ordering of the tail of a store starting at id `k`. -/
def dagFrom : Nat → List BNode → Bool
  | _, [] => true
  | k, nd :: rest => nodeDagOk k nd && dagFrom (k + 1) rest

/-- The store is topologically ordered (in particular cycle-free): every
untagged argument of node `i` references a node `j < i`. -/
def storeIsDag (store : Store) : Bool :=
  dagFrom 0 store

/-! ### Error attribution (`fdl.BuildError` paths) -/

/-- First argument with the given keyword name (Python keyword lookup). -/
def findArg : List Arg → String → Option (Ref × Bool)
  | [], _ => none
  | a :: rest, k => if a.key = k then some (a.ref, a.tagged) else findArg rest k

/-- Follow a `daglish` attribute path from a reference through untagged
arguments; returns the id of the node the path leads to. -/
def followPath (store : Store) : Ref → List String → Option Nat
  | Ref.node i, [] => some i
  | Ref.node i, k :: p =>
    match store.get? i with
    | some nd =>
      match findArg nd.args k with
      | some (r, false) => followPath store r p
      | _ => none
    | none => none
  | Ref.leaf _, _ => none

/-- A node's keyword-argument names are distinct (Python `dict` keys). -/
def nodeKeysOk (nd : BNode) : Bool :=
  decide (nd.args.map Arg.key).Nodup

/-- All nodes of the store have distinct keyword-argument names. -/
def storeKeysOk (store : Store) : Bool :=
  store.all nodeKeysOk


theorem dagFrom_get? {l : List BNode} {k m : Nat} {nd : BNode}
    (h : dagFrom k l = true) (hg : l.get? m = some nd) :
    nodeDagOk (k + m) nd = true := by
  induction l generalizing k m with
  | nil => simp at hg
  | cons hd tl ih =>
    rw [dagFrom, Bool.and_eq_true] at h
    cases m with
    | zero =>
      rw [List.get?_cons_zero, Option.some_inj] at hg
      rw [Nat.add_zero, ← hg]
      exact h.1
    | succ m' =>
      have := ih h.2 (by simpa using hg)
      rw [Nat.add_succ]
      rw [Nat.succ_add] at this
      exact this

theorem storeIsDag_get? {store : Store} {i : Nat} {nd : BNode}
    (h : storeIsDag store = true) (hg : store.get? i = some nd) :
    nodeDagOk i nd = true := by
  simpa using dagFrom_get? h hg

theorem argBound_le_of_dagOk {i : Nat} {a : Arg} (h : argDagOk i a = true) :
    argBound a ≤ i := by
  cases ht : a.tagged with
  | true => simp [argBound, ht]
  | false =>
    rw [argBound, if_neg (by simp [ht])]
    unfold argDagOk at h
    cases hr : a.ref with
    | leaf n => simp [refBound]
    | node j =>
      rw [hr, ht] at h
      simp only [Bool.false_or, decide_eq_true_eq] at h
      simpa [refBound] using h

theorem argsBound_le_of_all {i : Nat} {as : List Arg}
    (h : ∀ a ∈ as, argDagOk i a = true) : argsBound as ≤ i := by
  induction as with
  | nil => simp [argsBound]
  | cons a rest ih =>
    rw [argsBound, max_le_iff]
    exact ⟨argBound_le_of_dagOk (h a (by simp)),
      ih (fun x hx => h x (by simp [hx]))⟩

theorem argsBound_le_of_dagOk {i : Nat} {nd : BNode}
    (h : nodeDagOk i nd = true) : argsBound nd.args ≤ i := by
  unfold nodeDagOk at h
  rw [List.all_eq_true] at h
  exact argsBound_le_of_all h

theorem lookupMemo_push_self (s : BState) (i : Nat) (o : Obj) :
    lookupMemo (pushMemo s i o) i = some o := by
  simp [lookupMemo, pushMemo, List.lookup]

theorem lookupMemo_push_ne (s : BState) (i : Nat) (o : Obj) {j : Nat}
    (h : j ≠ i) : lookupMemo (pushMemo s i o) j = lookupMemo s j := by
  have hb : (j == i) = false := beq_eq_false_iff_ne.mpr h
  simp [lookupMemo, pushMemo, List.lookup, hb]

/-- Invariant preservation for the argument loop, parametric in the
recursive traversal `bf`. -/
theorem buildArgsWith_good
    {bf : Ref → List String → BState → Option (Except BErr (Obj × BState))}
    (hbf : ∀ r p s o s', bf r p s = some (Except.ok (o, s')) → Good s →
      Good s' ∧ MemoLe s s' ∧
        ∃ Δ, s'.log = s.log ++ Δ ∧ ∀ j ∈ Δ, j < refBound r) :
    ∀ (args : List Arg) (path : List String) (s : BState) vals s',
      buildArgsWith bf args path s = some (Except.ok (vals, s')) → Good s →
      Good s' ∧ MemoLe s s' ∧
        ∃ Δ, s'.log = s.log ++ Δ ∧ ∀ j ∈ Δ, j < argsBound args := by
  intro args
  induction args with
  | nil =>
    intro path s vals s' h hg
    rw [buildArgsWith] at h
    simp only [Option.some.injEq, Except.ok.injEq, Prod.mk.injEq] at h
    rw [← h.2]
    exact ⟨hg, fun j v hv => hv, [], by simp, by simp⟩
  | cons a rest ih =>
    intro path s vals s' h hg
    rw [buildArgsWith] at h
    split at h
    · -- tagged branch
      split at h
      · exact absurd h (by simp)
      · exact absurd h (by simp)
      · next vals1 s1 hrec =>
        simp only [Option.some.injEq, Except.ok.injEq, Prod.mk.injEq] at h
        obtain ⟨-, hs⟩ := h
        subst hs
        obtain ⟨hg1, hm1, Δ, hΔ, hb⟩ := ih path s vals1 s1 hrec hg
        refine ⟨hg1, hm1, Δ, hΔ, fun j hj => ?_⟩
        exact lt_of_lt_of_le (hb j hj) (le_max_right _ _)
    · -- untagged branch
      rename_i hnt
      split at h
      · exact absurd h (by simp)
      · exact absurd h (by simp)
      · next o1 s1 hcall =>
        split at h
        · exact absurd h (by simp)
        · exact absurd h (by simp)
        · next vals2 s2 hrec =>
          simp only [Option.some.injEq, Except.ok.injEq, Prod.mk.injEq] at h
          obtain ⟨-, hs⟩ := h
          subst hs
          obtain ⟨hg1, hm1, Δ1, hΔ1, hb1⟩ := hbf _ _ _ _ _ hcall hg
          obtain ⟨hg2, hm2, Δ2, hΔ2, hb2⟩ := ih path s1 vals2 s2 hrec hg1
          refine ⟨hg2, fun j v hv => hm2 j v (hm1 j v hv),
            Δ1 ++ Δ2, ?_, fun j hj => ?_⟩
          · rw [hΔ2, hΔ1, List.append_assoc]
          · have hab : argBound a = refBound a.ref := by
              rw [argBound, if_neg hnt]
            rcases List.mem_append.mp hj with hj1 | hj2
            · exact lt_of_lt_of_le (hb1 j hj1)
                (by rw [argsBound, ← hab]; exact le_max_left _ _)
            · exact lt_of_lt_of_le (hb2 j hj2)
                (by rw [argsBound]; exact le_max_right _ _)

/-- Invariant preservation for the main traversal: on an acyclic
(topologically ordered) store, a successful traversal keeps the state
`Good`, only grows the memo, and only logs builds of node ids below the
bound of the reference being traversed. -/
theorem buildRef_good (store : Store) (hdag : storeIsDag store = true) :
    ∀ fuel r path s o s',
      buildRef store fuel r path s = some (Except.ok (o, s')) → Good s →
      Good s' ∧ MemoLe s s' ∧
        ∃ Δ, s'.log = s.log ++ Δ ∧ ∀ j ∈ Δ, j < refBound r := by
  intro fuel
  induction fuel with
  | zero =>
    intro r path s o s' h
    rw [buildRef] at h
    exact absurd h (by simp)
  | succ fuel ih =>
    intro r path s o s' h hg
    cases r with
    | leaf n =>
      rw [buildRef] at h
      simp only [Option.some.injEq, Except.ok.injEq, Prod.mk.injEq] at h
      rw [← h.2]
      exact ⟨hg, fun j v hv => hv, [], by simp, by simp⟩
    | node i =>
      rw [buildRef] at h
      split at h
      · -- memo hit
        simp only [Option.some.injEq, Except.ok.injEq, Prod.mk.injEq] at h
        rw [← h.2]
        exact ⟨hg, fun j v hv => hv, [], by simp, by simp⟩
      · -- memo miss
        next hmiss =>
        split at h
        · exact absurd h (by simp)
        · next nd hnd =>
          split at h
          · exact absurd h (by simp)
          · exact absurd h (by simp)
          · next vals s1 hargs =>
            obtain ⟨hg1, hm1, Δa, hΔa, hba⟩ :=
              buildArgsWith_good ih nd.args path s vals s1 hargs hg
            have hbound : argsBound nd.args ≤ i :=
              argsBound_le_of_dagOk (storeIsDag_get? hdag hnd)
            have hinotlog : i ∉ s.log := by
              intro hmem
              have := (hg.2 i).mpr hmem
              rw [hmiss] at this
              exact absurd this (by simp)
            have hinotΔ : i ∉ Δa := by
              intro hmem
              exact absurd (lt_of_lt_of_le (hba i hmem) hbound) (lt_irrefl i)
            split at h
            · exact absurd h (by simp)
            · exact absurd h (by simp)
            · -- __build__ succeeds: result is memoized
              simp only [Option.some.injEq, Except.ok.injEq, Prod.mk.injEq] at h
              obtain ⟨ho, hs⟩ := h
              subst hs
              have hlog1 : i ∉ s1.log := by
                rw [hΔa]
                intro hmem
                rcases List.mem_append.mp hmem with hm' | hm'
                · exact hinotlog hm'
                · exact hinotΔ hm'
              have hmem1 : lookupMemo s1 i = none := by
                rcases hm' : lookupMemo s1 i with _ | v
                · rfl
                · exact absurd ((hg1.2 i).mp (by rw [hm']; rfl)) hlog1
              refine ⟨⟨?_, ?_⟩, ?_, Δa ++ [i], ?_, ?_⟩
              · -- Nodup of the new log
                show (s1.log ++ [i]).Nodup
                rw [List.nodup_append]
                exact ⟨hg1.1, List.nodup_singleton i,
                  by rw [List.disjoint_singleton]; exact hlog1⟩
              · -- memo contents = logged ids
                intro j
                by_cases hji : j = i
                · subst hji
                  constructor
                  · intro _
                    show j ∈ s1.log ++ [j]
                    simp
                  · intro _
                    rw [show lookupMemo (pushMemo s1 j _) j = some _ from
                      lookupMemo_push_self s1 j _]
                    rfl
                · rw [show lookupMemo (pushMemo s1 i _) j = lookupMemo s1 j from
                    lookupMemo_push_ne s1 i _ hji]
                  rw [hg1.2 j]
                  show _ ↔ j ∈ s1.log ++ [i]
                  simp [hji]
              · -- memo monotone
                intro j v hv
                have hji : j ≠ i := by
                  intro hji
                  subst hji
                  rw [hmiss] at hv
                  exact absurd hv (by simp)
                rw [lookupMemo_push_ne s1 i _ hji]
                exact hm1 j v hv
              · show s1.log ++ [i] = s.log ++ (Δa ++ [i])
                rw [hΔa, List.append_assoc]
              · intro j hj
                rcases List.mem_append.mp hj with hj' | hj'
                · exact lt_of_lt_of_le (hba j hj')
                    (Nat.le_succ_of_le hbound)
                · rw [List.mem_singleton] at hj'
                  subst hj'
                  exact Nat.lt_succ_self j

/-- After a successful traversal of a `Buildable`, its built object is in
the memo (either it already was, or it was just inserted). -/
theorem buildRef_memo_after {store : Store} {fuel i : Nat} {path : List String}
    {s : BState} {o : Obj} {s' : BState}
    (h : buildRef store fuel (Ref.node i) path s = some (Except.ok (o, s'))) :
    lookupMemo s' i = some o := by
  cases fuel with
  | zero =>
    rw [buildRef] at h
    exact absurd h (by simp)
  | succ fuel =>
    rw [buildRef] at h
    split at h
    · next o0 hhit =>
      simp only [Option.some.injEq, Except.ok.injEq, Prod.mk.injEq] at h
      rw [← h.2, ← h.1]
      exact hhit
    · split at h
      · exact absurd h (by simp)
      · split at h
        · exact absurd h (by simp)
        · exact absurd h (by simp)
        · split at h
          · exact absurd h (by simp)
          · exact absurd h (by simp)
          · simp only [Option.some.injEq, Except.ok.injEq, Prod.mk.injEq] at h
            rw [← h.2, ← h.1]
            exact lookupMemo_push_self _ _ _

/-- A second traversal of an already-built `Buildable` is a pure memo hit:
it returns the identical object and leaves the traversal state (in
particular the build log) unchanged. -/
theorem buildRef_reuse {store : Store} {fuel i : Nat} {path : List String}
    {s : BState} {o : Obj} {s' : BState} (fuel₂ : Nat) (path₂ : List String)
    (h : buildRef store fuel (Ref.node i) path s = some (Except.ok (o, s'))) :
    buildRef store (fuel₂ + 1) (Ref.node i) path₂ s' =
      some (Except.ok (o, s')) := by
  have hm := buildRef_memo_after h
  rw [buildRef, hm]

/-- Pointwise specification of the arguments produced by the argument
loop: names are preserved, `DoNotBuild`-tagged values are kept as-is, and
untagged values are outputs of the recursive traversal. -/
theorem buildArgsWith_forall2
    {bf : Ref → List String → BState → Option (Except BErr (Obj × BState))} :
    ∀ (args : List Arg) (path : List String) (s : BState) vals s',
      buildArgsWith bf args path s = some (Except.ok (vals, s')) →
      List.Forall₂ (fun (a : Arg) (kv : String × Obj) =>
        kv.1 = a.key ∧ (a.tagged = true → kv.2 = asIs a.ref) ∧
          (a.tagged = false → ∃ p s₁ s₂,
            bf a.ref p s₁ = some (Except.ok (kv.2, s₂)))) args vals := by
  intro args
  induction args with
  | nil =>
    intro path s vals s' h
    rw [buildArgsWith] at h
    simp only [Option.some.injEq, Except.ok.injEq, Prod.mk.injEq] at h
    rw [← h.1]
    exact List.Forall₂.nil
  | cons a rest ih =>
    intro path s vals s' h
    rw [buildArgsWith] at h
    split at h
    · next htag =>
      split at h
      · exact absurd h (by simp)
      · exact absurd h (by simp)
      · next vals1 s1 hrec =>
        simp only [Option.some.injEq, Except.ok.injEq, Prod.mk.injEq] at h
        rw [← h.1]
        exact List.Forall₂.cons
          ⟨rfl, fun _ => rfl, fun hf => absurd htag (by rw [hf]; simp)⟩
          (ih path s vals1 s1 hrec)
    · next htag =>
      split at h
      · exact absurd h (by simp)
      · exact absurd h (by simp)
      · next o1 s1 hcall =>
        split at h
        · exact absurd h (by simp)
        · exact absurd h (by simp)
        · next vals2 s2 hrec =>
          simp only [Option.some.injEq, Except.ok.injEq, Prod.mk.injEq] at h
          rw [← h.1]
          exact List.Forall₂.cons
            ⟨rfl, fun hf => absurd hf htag,
              fun _ => ⟨path ++ [a.key], s, s1, hcall⟩⟩
            (ih path s1 vals2 s2 hrec)

theorem storeKeysOk_get? {store : Store} {i : Nat} {nd : BNode}
    (h : storeKeysOk store = true) (hg : store.get? i = some nd) :
    (nd.args.map Arg.key).Nodup := by
  rw [storeKeysOk, List.all_eq_true] at h
  have := h nd (List.get?_mem hg)
  rw [nodeKeysOk, decide_eq_true_eq] at this
  exact this

theorem findArg_of_mem {args : List Arg} {a : Arg}
    (hnd : (args.map Arg.key).Nodup) (hmem : a ∈ args) :
    findArg args a.key = some (a.ref, a.tagged) := by
  induction args with
  | nil => exact absurd hmem (by simp)
  | cons b rest ih =>
    rw [List.map_cons, List.nodup_cons] at hnd
    rcases List.mem_cons.mp hmem with hab | hmem'
    · rw [← hab, findArg, if_pos rfl]
    · rw [findArg]
      have hne : b.key ≠ a.key := by
        intro hk
        exact hnd.1 (by rw [hk]; exact List.mem_map_of_mem Arg.key hmem')
      rw [if_neg hne]
      exact ih hnd.2 hmem'

/-- What a traversal error of reference `r` at path `path` must look like:
a generic exception is wrapped once, at the failing node, into a
`BuildError` whose path extends `path` down to that node;
`TaggedValueNotFilledError` propagates unchanged from some reachable
failing node. -/
def ErrSpec (store : Store) (r : Ref) (path : List String) (e : BErr) : Prop :=
  (∀ q c, e = BErr.buildError q c → ∃ p₂ i nd, q = path ++ p₂ ∧
    followPath store r p₂ = some i ∧ store.get? i = some nd ∧
    nd.fails = some (BuildRaise.exc c)) ∧
  (e = BErr.taggedNotFilled → ∃ p₂ i nd,
    followPath store r p₂ = some i ∧ store.get? i = some nd ∧
    nd.fails = some BuildRaise.taggedNotFilled)

/-- Analogue of `ErrSpec` for the argument loop: the error comes from
building some untagged argument. -/
def ArgsErrSpec (store : Store) (args : List Arg) (path : List String)
    (e : BErr) : Prop :=
  (∀ q c, e = BErr.buildError q c → ∃ a ∈ args, a.tagged = false ∧
    ∃ p₂ i nd, q = path ++ a.key :: p₂ ∧
      followPath store a.ref p₂ = some i ∧ store.get? i = some nd ∧
      nd.fails = some (BuildRaise.exc c)) ∧
  (e = BErr.taggedNotFilled → ∃ a ∈ args, a.tagged = false ∧
    ∃ p₂ i nd, followPath store a.ref p₂ = some i ∧
      store.get? i = some nd ∧ nd.fails = some BuildRaise.taggedNotFilled)

theorem buildArgsWith_err {store : Store}
    {bf : Ref → List String → BState → Option (Except BErr (Obj × BState))}
    (hbf : ∀ r p s e, bf r p s = some (Except.error e) → ErrSpec store r p e) :
    ∀ (args : List Arg) (path : List String) (s : BState) (e : BErr),
      buildArgsWith bf args path s = some (Except.error e) →
      ArgsErrSpec store args path e := by
  intro args
  induction args with
  | nil =>
    intro path s e h
    rw [buildArgsWith] at h
    exact absurd h (by simp)
  | cons a rest ih =>
    intro path s e h
    rw [buildArgsWith] at h
    split at h
    · split at h
      · exact absurd h (by simp)
      · next e1 herr =>
        simp only [Option.some.injEq, Except.error.injEq] at h
        subst h
        obtain ⟨h1, h2⟩ := ih path s e1 herr
        constructor
        · intro q c hq
          obtain ⟨a', ha', rest'⟩ := h1 q c hq
          exact ⟨a', List.mem_cons_of_mem a ha', rest'⟩
        · intro hq
          obtain ⟨a', ha', rest'⟩ := h2 hq
          exact ⟨a', List.mem_cons_of_mem a ha', rest'⟩
      · exact absurd h (by simp)
    · next htag =>
      split at h
      · exact absurd h (by simp)
      · next e1 hcall =>
        simp only [Option.some.injEq, Except.error.injEq] at h
        subst h
        obtain ⟨h1, h2⟩ := hbf _ _ _ _ hcall
        have hnt : a.tagged = false := by
          cases hv : a.tagged
          · rfl
          · exact absurd hv htag
        constructor
        · intro q c hq
          obtain ⟨p₂, i, nd, hq', hf, hget, hfail⟩ := h1 q c hq
          refine ⟨a, List.mem_cons_self a rest, hnt, p₂, i, nd, ?_, hf, hget, hfail⟩
          rw [hq', List.append_assoc]
          rfl
        · intro hq
          obtain ⟨p₂, i, nd, hf, hget, hfail⟩ := h2 hq
          exact ⟨a, List.mem_cons_self a rest, hnt, p₂, i, nd, hf, hget, hfail⟩
      · next o1 s1 hcall =>
        split at h
        · exact absurd h (by simp)
        · next e1 herr =>
          simp only [Option.some.injEq, Except.error.injEq] at h
          subst h
          obtain ⟨h1, h2⟩ := ih path s1 e1 herr
          constructor
          · intro q c hq
            obtain ⟨a', ha', rest'⟩ := h1 q c hq
            exact ⟨a', List.mem_cons_of_mem a ha', rest'⟩
          · intro hq
            obtain ⟨a', ha', rest'⟩ := h2 hq
            exact ⟨a', List.mem_cons_of_mem a ha', rest'⟩
        · exact absurd h (by simp)

/-- Error attribution for the main traversal on a store with well-formed
keyword names. -/
theorem buildRef_err {store : Store} (hkeys : storeKeysOk store = true) :
    ∀ (fuel : Nat) (r : Ref) (path : List String) (s : BState) (e : BErr),
      buildRef store fuel r path s = some (Except.error e) →
      ErrSpec store r path e := by
  intro fuel
  induction fuel with
  | zero =>
    intro r path s e h
    rw [buildRef] at h
    exact absurd h (by simp)
  | succ fuel ih =>
    intro r path s e h
    cases r with
    | leaf n =>
      rw [buildRef] at h
      exact absurd h (by simp)
    | node i =>
      rw [buildRef] at h
      split at h
      · exact absurd h (by simp)
      · split at h
        · exact absurd h (by simp)
        · next nd hnd =>
          split at h
          · exact absurd h (by simp)
          · next e1 hargs =>
            simp only [Option.some.injEq, Except.error.injEq] at h
            subst h
            obtain ⟨h1, h2⟩ := buildArgsWith_err ih nd.args path s e1 hargs
            constructor
            · intro q c hq
              obtain ⟨a, ha, hnt, p₂, i', nd', hq', hf, hget, hfail⟩ :=
                h1 q c hq
              refine ⟨a.key :: p₂, i', nd', hq', ?_, hget, hfail⟩
              have h3 : findArg nd.args a.key = some (a.ref, a.tagged) :=
                findArg_of_mem (storeKeysOk_get? hkeys hnd) ha
              rw [hnt] at h3
              simp only [followPath, hnd, h3]
              exact hf
            · intro hq
              obtain ⟨a, ha, hnt, p₂, i', nd', hf, hget, hfail⟩ := h2 hq
              refine ⟨a.key :: p₂, i', nd', ?_, hget, hfail⟩
              have h3 : findArg nd.args a.key = some (a.ref, a.tagged) :=
                findArg_of_mem (storeKeysOk_get? hkeys hnd) ha
              rw [hnt] at h3
              simp only [followPath, hnd, h3]
              exact hf
          · next vals s1 hargs =>
            split at h
            · -- the node's own `__build__` raises TaggedValueNotFilledError
              next hfail =>
              simp only [Option.some.injEq, Except.error.injEq] at h
              subst h
              refine ⟨fun q c hq => absurd hq (by simp), fun _ => ?_⟩
              exact ⟨[], i, nd, rfl, hnd, hfail⟩
            · -- the node's own `__build__` raises a generic exception
              next c hfail =>
              simp only [Option.some.injEq, Except.error.injEq] at h
              constructor
              · intro q c' hq
                rw [← h] at hq
                simp only [BErr.buildError.injEq] at hq
                refine ⟨[], i, nd, by rw [← hq.1, List.append_nil], rfl, hnd, ?_⟩
                rw [hfail, hq.2]
              · intro hq
                rw [← h] at hq
                exact absurd hq (by simp)
            · exact absurd h (by simp)

/-! ### Summary-type suffix round-trip -/

theorem typeSuffix_isSuffixOf_append (t : SummaryType) (s : List Char) :
    (typeSuffix t).isSuffixOf (s ++ typeSuffix t) = true := by
  rw [List.isSuffixOf_iff_suffix]
  exact List.suffix_append s _

theorem typeSuffix_mismatch (t t' : SummaryType) (s : List Char)
    (h1 : ¬ typeSuffix t <:+ typeSuffix t')
    (h2 : ¬ typeSuffix t' <:+ typeSuffix t) :
    (typeSuffix t).isSuffixOf (s ++ typeSuffix t') = false := by
  have hns : ¬ typeSuffix t <:+ s ++ typeSuffix t' := fun h =>
    (List.suffix_or_suffix_of_suffix h (List.suffix_append s _)).elim h1 h2
  rw [← List.isSuffixOf_iff_suffix] at hns
  exact Bool.eq_false_iff.mpr hns

/-- Scanning a key of the form `name + '_' + base(t).name.lower()` finds
the base member of `t` first, for every `name`. -/
theorem find_base_of_append (t : SummaryType) (s : List Char) :
    SummaryType.members.find?
        (fun t' => (typeSuffix t').isSuffixOf (s ++ get_summary_type_suffix t)) =
      some (get_summary_base_type t) := by
  cases t <;>
    simp only [get_summary_type_suffix, get_summary_base_type,
      SummaryType.members, List.find?,
      typeSuffix_isSuffixOf_append,
      typeSuffix_mismatch SummaryType.SCALAR SummaryType.IMAGE s
        (by decide) (by decide),
      typeSuffix_mismatch SummaryType.SCALAR SummaryType.TEXT s
        (by decide) (by decide),
      typeSuffix_mismatch SummaryType.IMAGE SummaryType.TEXT s
        (by decide) (by decide),
      typeSuffix_mismatch SummaryType.SCALAR SummaryType.AUDIO s
        (by decide) (by decide),
      typeSuffix_mismatch SummaryType.IMAGE SummaryType.AUDIO s
        (by decide) (by decide),
      typeSuffix_mismatch SummaryType.TEXT SummaryType.AUDIO s
        (by decide) (by decide),
      typeSuffix_mismatch SummaryType.SCALAR SummaryType.VIDEO s
        (by decide) (by decide),
      typeSuffix_mismatch SummaryType.IMAGE SummaryType.VIDEO s
        (by decide) (by decide),
      typeSuffix_mismatch SummaryType.TEXT SummaryType.VIDEO s
        (by decide) (by decide),
      typeSuffix_mismatch SummaryType.AUDIO SummaryType.VIDEO s
        (by decide) (by decide),
      typeSuffix_mismatch SummaryType.SCALAR SummaryType.HISTOGRAM s
        (by decide) (by decide),
      typeSuffix_mismatch SummaryType.IMAGE SummaryType.HISTOGRAM s
        (by decide) (by decide),
      typeSuffix_mismatch SummaryType.TEXT SummaryType.HISTOGRAM s
        (by decide) (by decide),
      typeSuffix_mismatch SummaryType.AUDIO SummaryType.HISTOGRAM s
        (by decide) (by decide),
      typeSuffix_mismatch SummaryType.VIDEO SummaryType.HISTOGRAM s
        (by decide) (by decide)]

theorem from_key_append_suffix (t : SummaryType) (s : List Char) :
    get_summary_type_from_key (s ++ get_summary_type_suffix t) =
      some (get_summary_base_type t) := by
  rw [get_summary_type_from_key]
  exact find_base_of_append t s

theorem trim_append_suffix (t : SummaryType) (s : List Char) :
    trim_summary_type_from_key (s ++ get_summary_type_suffix t) = some s := by
  rw [trim_summary_type_from_key, find_base_of_append t s]
  show some ((s ++ get_summary_type_suffix t).take
      ((s ++ get_summary_type_suffix t).length -
        (typeSuffix (get_summary_base_type t)).length)) = some s
  have hlen : (s ++ get_summary_type_suffix t).length -
      (typeSuffix (get_summary_base_type t)).length = s.length := by
    simp [List.length_append, get_summary_type_suffix]
  rw [hlen, get_summary_type_suffix, List.take_left]

/-! ### Fan-in / fan-out computation -/

theorem pyGet_ofNat (shape : List Nat) (k : Nat) :
    pyGet shape (Int.ofNat k) = shape.get? k := by
  rw [pyGet, pyIdx]
  have h0 : ¬ (Int.ofNat k < 0) := by
    simp only [Int.ofNat_eq_natCast]
    omega
  rw [if_neg h0, if_neg h0]
  rfl

theorem prodAxes_forall2 {shape : List Nat} {axes : List Int}
    {vals : List Nat}
    (h : List.Forall₂ (fun i d => pyGet shape i = some d) axes vals) :
    prodAxes shape axes = some vals.prod := by
  induction h with
  | nil => rfl
  | cons hd _ ih =>
    rw [prodAxes, hd, ih, List.prod_cons]

theorem range'_forall2 (shape : List Nat) :
    ∀ (n s : Nat), s + n ≤ shape.length →
      List.Forall₂ (fun i d => pyGet shape i = some d)
        ((List.range' s n).map Int.ofNat) ((shape.drop s).take n) := by
  intro n
  induction n with
  | zero =>
    intro s _
    simp [List.range']
  | succ n ih =>
    intro s h
    have hs : s < shape.length := by omega
    rw [show List.range' s (n + 1) = s :: List.range' (s + 1) n from rfl,
      List.drop_eq_get_cons hs, List.map_cons, List.take_succ_cons]
    refine List.Forall₂.cons ?_ (ih (s + 1) (by omega))
    rw [pyGet_ofNat, List.get?_eq_get hs]

theorem prodAxes_range (shape : List Nat) (n : Nat) (h : n ≤ shape.length) :
    prodAxes shape ((List.range n).map Int.ofNat) =
      some ((shape.take n).prod) := by
  have h2 := range'_forall2 shape n 0 (by omega)
  rw [List.range_eq_range' n]
  simpa using prodAxes_forall2 h2

theorem pyIdx_concat_neg2 (pre : List Nat) (a b : Nat) :
    pyIdx (pre ++ [a, b]).length (-2) = Int.ofNat pre.length := by
  rw [pyIdx, if_pos (by omega)]
  have hlen : (pre ++ [a, b]).length = pre.length + 2 := by
    simp [List.length_append]
  rw [hlen]
  simp only [Int.ofNat_eq_natCast]
  omega

theorem pyIdx_concat_neg1 (pre : List Nat) (a b : Nat) :
    pyIdx (pre ++ [a, b]).length (-1) = Int.ofNat (pre.length + 1) := by
  rw [pyIdx, if_pos (by omega)]
  have hlen : (pre ++ [a, b]).length = pre.length + 2 := by
    simp [List.length_append]
  rw [hlen]
  simp only [Int.ofNat_eq_natCast]
  omega

theorem pyGet_concat_two (pre : List Nat) (a b : Nat) :
    pyGet (pre ++ [a, b]) (-2) = some a ∧
      pyGet (pre ++ [a, b]) (-1) = some b := by
  have hn2 : ¬ (Int.ofNat pre.length < 0) := by
    simp only [Int.ofNat_eq_natCast]
    omega
  have hn1 : ¬ (Int.ofNat (pre.length + 1) < 0) := by
    simp only [Int.ofNat_eq_natCast]
    omega
  constructor
  · rw [pyGet, pyIdx_concat_neg2, if_neg hn2]
    show (pre ++ [a, b]).get? pre.length = some a
    rw [List.get?_append_right (Nat.le_refl _), Nat.sub_self]
    rfl
  · rw [pyGet, pyIdx_concat_neg1, if_neg hn1]
    show (pre ++ [a, b]).get? (pre.length + 1) = some b
    rw [List.get?_append_right (Nat.le_succ _),
      Nat.succ_sub (Nat.le_refl _), Nat.sub_self]
    rfl

/-! ### Copy-down of base hparams -/

/-- Unfolding of `copy_down` without the `attach` used for termination. -/
theorem copy_down_node (src : BaseFields) (nm : String) (f : BaseFields)
    (cs : List (String × Bool × LayerTree)) :
    copy_down src (LayerTree.node nm f cs) =
      LayerTree.node nm (copy_base_hparams_fields src f)
        (cs.map (fun c => if c.2.1 then c
          else (c.1, c.2.1, copy_down (copy_base_hparams_fields src f) c.2.2))) := by
  rw [copy_down]
  congr 1
  exact List.attach_map_val cs (fun c => if c.2.1 then c
    else (c.1, c.2.1, copy_down (copy_base_hparams_fields src f) c.2.2))

/-! ### Claim theorems -/

/-- C1: for every config tree passed to `build` and every argument of a
`Buildable` node in it: a `DoNotBuild`-tagged argument is kept as-is in
the built object (verbatim, an unbuilt config even if it is itself a
Buildable), every untagged argument is recursively built first, and the
(possibly-built) arguments are passed as keyword arguments to the node's
callable to produce the real object. -/
theorem c1_build_respects_do_not_build (store : Store) (fuel i : Nat)
    (path : List String) (s : BState) (o : Obj) (s' : BState)
    (h : buildRef store fuel (Ref.node i) path s = some (Except.ok (o, s')))
    (hmiss : lookupMemo s i = none) :
    ∃ nd vals, store.get? i = some nd ∧ o = Obj.built nd.callable vals ∧
      List.Forall₂ (fun (a : Arg) (kv : String × Obj) =>
        kv.1 = a.key ∧ (a.tagged = true → kv.2 = asIs a.ref) ∧
          (a.tagged = false → ∃ f p s₁ s₂,
            buildRef store f a.ref p s₁ = some (Except.ok (kv.2, s₂))))
        nd.args vals := by
  cases fuel with
  | zero =>
    rw [buildRef] at h
    exact absurd h (by simp)
  | succ fuel =>
    rw [buildRef] at h
    split at h
    · next o0 hhit =>
      rw [hhit] at hmiss
      exact absurd hmiss (by simp)
    · split at h
      · exact absurd h (by simp)
      · next nd hnd =>
        split at h
        · exact absurd h (by simp)
        · exact absurd h (by simp)
        · next vals s1 hargs =>
          split at h
          · exact absurd h (by simp)
          · exact absurd h (by simp)
          · simp only [Option.some.injEq, Except.ok.injEq, Prod.mk.injEq] at h
            refine ⟨nd, vals, hnd, h.1.symm, ?_⟩
            refine (buildArgsWith_forall2 nd.args path s vals s1 hargs).imp ?_
            rintro a kv ⟨h1, h2, h3⟩
            refine ⟨h1, h2, fun hnt => ?_⟩
            obtain ⟨p, s₁, s₂, hc⟩ := h3 hnt
            exact ⟨fuel, p, s₁, s₂, hc⟩

/-- Witness for C1: a store in which node 1 references node 0 both through
a `DoNotBuild`-tagged argument (kept as the unbuilt config) and an
untagged one (built). -/
theorem c1_build_respects_do_not_build_witness :
    ∃ nd vals,
      ([⟨5, [⟨"x", Ref.leaf 3, false⟩], none⟩,
        ⟨6, [⟨"t", Ref.node 0, true⟩, ⟨"u", Ref.node 0, false⟩],
          none⟩] : Store).get? 1 = some nd ∧
      Obj.built 6 [("t", Obj.unbuilt 0),
        ("u", Obj.built 5 [("x", Obj.leaf 3)])] =
        Obj.built nd.callable vals ∧
      List.Forall₂ (fun (a : Arg) (kv : String × Obj) =>
        kv.1 = a.key ∧ (a.tagged = true → kv.2 = asIs a.ref) ∧
          (a.tagged = false → ∃ f p s₁ s₂,
            buildRef [⟨5, [⟨"x", Ref.leaf 3, false⟩], none⟩,
              ⟨6, [⟨"t", Ref.node 0, true⟩, ⟨"u", Ref.node 0, false⟩], none⟩]
              f a.ref p s₁ = some (Except.ok (kv.2, s₂))))
        nd.args vals :=
  c1_build_respects_do_not_build
    [⟨5, [⟨"x", Ref.leaf 3, false⟩], none⟩,
     ⟨6, [⟨"t", Ref.node 0, true⟩, ⟨"u", Ref.node 0, false⟩], none⟩]
    9 1 [] initState
    (Obj.built 6 [("t", Obj.unbuilt 0),
      ("u", Obj.built 5 [("x", Obj.leaf 3)])])
    ⟨[(1, Obj.built 6 [("t", Obj.unbuilt 0),
        ("u", Obj.built 5 [("x", Obj.leaf 3)])]),
      (0, Obj.built 5 [("x", Obj.leaf 3)])], [0, 1]⟩
    rfl rfl

/-- C3: the `build` traversal is memoized: on a DAG-ordered store, the log
of completed node builds of a whole traversal has no duplicates (every
`Buildable` is built at most once however many paths reach it), and any
later traversal of an already-built `Buildable` returns the identical
result object with the traversal state unchanged (the result is reused,
not rebuilt). -/
theorem c3_build_memoized (store : Store) (hdag : storeIsDag store = true) :
    (∀ fuel r path o s',
      buildRef store fuel r path initState = some (Except.ok (o, s')) →
      s'.log.Nodup) ∧
    (∀ fuel i path s o s₁ fuel₂ path₂,
      buildRef store fuel (Ref.node i) path s = some (Except.ok (o, s₁)) →
      buildRef store (fuel₂ + 1) (Ref.node i) path₂ s₁ =
        some (Except.ok (o, s₁))) := by
  constructor
  · intro fuel r path o s' h
    have hgood : Good initState := by
      refine ⟨List.nodup_nil, fun j => ?_⟩
      simp [lookupMemo, initState, List.lookup]
    exact ((buildRef_good store hdag fuel r path initState o s' h hgood).1).1
  · intro fuel i path s o s₁ fuel₂ path₂ h
    exact buildRef_reuse fuel₂ path₂ h

/-- Witness for C3: a diamond store (node 1 references node 0 twice); the
build log is `[0, 1]` (node 0 built once), and a repeat traversal of
node 0 returns the identical object without changing the state. -/
theorem c3_build_memoized_witness :
    (⟨[(1, Obj.built 6 [("u", Obj.built 5 [("x", Obj.leaf 3)]),
          ("v", Obj.built 5 [("x", Obj.leaf 3)])]),
       (0, Obj.built 5 [("x", Obj.leaf 3)])], [0, 1]⟩ : BState).log.Nodup ∧
    buildRef [⟨5, [⟨"x", Ref.leaf 3, false⟩], none⟩,
        ⟨6, [⟨"u", Ref.node 0, false⟩, ⟨"v", Ref.node 0, false⟩], none⟩]
      (3 + 1) (Ref.node 0) ["z"]
      ⟨[(0, Obj.built 5 [("x", Obj.leaf 3)])], [0]⟩ =
      some (Except.ok (Obj.built 5 [("x", Obj.leaf 3)],
        ⟨[(0, Obj.built 5 [("x", Obj.leaf 3)])], [0]⟩)) := by
  have hc := c3_build_memoized
    [⟨5, [⟨"x", Ref.leaf 3, false⟩], none⟩,
     ⟨6, [⟨"u", Ref.node 0, false⟩, ⟨"v", Ref.node 0, false⟩], none⟩]
    (by rfl)
  exact ⟨hc.1 9 (Ref.node 1) [] _ _ rfl,
    hc.2 9 0 [] initState (Obj.built 5 [("x", Obj.leaf 3)])
      ⟨[(0, Obj.built 5 [("x", Obj.leaf 3)])], [0]⟩ 3 ["z"] rfl⟩

/-- C4: when `build` fails, a generic constructor exception surfaces as a
`BuildError` carrying the path from the root to the failing node together
with the original exception, while `TaggedValueNotFilledError` propagates
to the caller unchanged (and stems from a reachable failing node). -/
theorem c4_build_error_paths (store : Store) (hkeys : storeKeysOk store = true)
    (fuel : Nat) (r : Ref) (e : BErr)
    (h : build store fuel r = some (Except.error e)) :
    (∀ p c, e = BErr.buildError p c → ∃ i nd,
      followPath store r p = some i ∧ store.get? i = some nd ∧
        nd.fails = some (BuildRaise.exc c)) ∧
    (e = BErr.taggedNotFilled → ∃ p i nd,
      followPath store r p = some i ∧ store.get? i = some nd ∧
        nd.fails = some BuildRaise.taggedNotFilled) := by
  have hspec := buildRef_err hkeys fuel r [] initState e h
  constructor
  · intro p c hp
    obtain ⟨p₂, i, nd, hq, hf, hget, hfail⟩ := hspec.1 p c hp
    rw [List.nil_append] at hq
    rw [hq]
    exact ⟨i, nd, hf, hget, hfail⟩
  · intro hp
    obtain ⟨p₂, i, nd, hf, hget, hfail⟩ := hspec.2 hp
    exact ⟨p₂, i, nd, hf, hget, hfail⟩

/-- Witness for C4: node 0 raises exception 42 under argument `"a"` of the
root; the build error carries path `["a"]` and the original exception, and
in a second store a `TaggedValueNotFilledError` propagates unchanged. -/
theorem c4_build_error_paths_witness :
    (∃ i nd,
      followPath [⟨7, [], some (BuildRaise.exc 42)⟩,
          ⟨8, [⟨"a", Ref.node 0, false⟩], none⟩] (Ref.node 1) ["a"] = some i ∧
      ([⟨7, [], some (BuildRaise.exc 42)⟩,
        ⟨8, [⟨"a", Ref.node 0, false⟩], none⟩] : Store).get? i = some nd ∧
      nd.fails = some (BuildRaise.exc 42)) ∧
    (∃ p i nd,
      followPath [⟨7, [], some BuildRaise.taggedNotFilled⟩,
          ⟨8, [⟨"a", Ref.node 0, false⟩], none⟩] (Ref.node 1) p = some i ∧
      ([⟨7, [], some BuildRaise.taggedNotFilled⟩,
        ⟨8, [⟨"a", Ref.node 0, false⟩], none⟩] : Store).get? i = some nd ∧
      nd.fails = some BuildRaise.taggedNotFilled) := by
  constructor
  · exact (c4_build_error_paths
      [⟨7, [], some (BuildRaise.exc 42)⟩, ⟨8, [⟨"a", Ref.node 0, false⟩], none⟩]
      (by rfl) 9 (Ref.node 1) (BErr.buildError ["a"] 42) rfl).1 ["a"] 42 rfl
  · exact (c4_build_error_paths
      [⟨7, [], some BuildRaise.taggedNotFilled⟩,
       ⟨8, [⟨"a", Ref.node 0, false⟩], none⟩]
      (by rfl) 9 (Ref.node 1) BErr.taggedNotFilled rfl).2 rfl

/-- C2: under one root scope, the first instantiation of a config carrying
a shared-weight id registers a single underlying layer, a second
instantiation with a compatible config (structurally equal modulo name)
returns that same underlying layer object and leaves the cache unchanged,
and calling `set_shared_layer` a second time for the same (scope, id) pair
fails its assertion — at most one weight-owning instance per shared-weight
id per root scope. -/
theorem c2_shared_layer_at_most_one (scope : Nat) (id : String)
    (p p' : LayerCfg) (s : InstState)
    (hp : p.sharedId = some id) (hp' : p'.sharedId = some id)
    (hmiss : lookup_shared_layer s.ctx scope id = none)
    (hcompat : compatible_hparams p p') :
    (∀ L s₁, instantiate_layer p scope s = some (L, s₁) →
      instantiate_layer p' scope s₁ = some (L, s₁)) ∧
    (∀ (m m' : SharedMap) (w w' : WrapperLayer) (q q' : LayerCfg),
      set_shared_layer m scope id w q = some m' →
      set_shared_layer m' scope id w' q' = none) := by
  constructor
  · intro L s₁ h1
    simp only [instantiate_layer, hp, hmiss, set_shared_layer,
      Option.some.injEq, Prod.mk.injEq] at h1
    obtain ⟨hL, hs₁⟩ := h1
    rw [← hs₁, ← hL]
    have hhit : lookup_shared_layer
        (((scope, id), ⟨s.fresh, p, ⟨s.fresh, s.fresh + 1⟩⟩) :: s.ctx)
        scope id = some ⟨s.fresh, p, ⟨s.fresh, s.fresh + 1⟩⟩ := by
      simp [lookup_shared_layer, List.lookup]
    simp only [instantiate_layer, hp', hhit, if_pos hcompat]
  · intro m m' w w' q q' h1
    rw [set_shared_layer] at h1
    split at h1
    · exact absurd h1 (by simp)
    · simp only [Option.some.injEq] at h1
      rw [set_shared_layer, ← h1]
      have hhit : lookup_shared_layer (((scope, id), ⟨w.cld, q, w⟩) :: m)
          scope id = some ⟨w.cld, q, w⟩ := by
        simp [lookup_shared_layer, List.lookup]
      rw [hhit]

/-- Witness for C2 at scope 0 and id `"sid"`: the second instantiation of
a compatible config returns the layer created by the first (identity 0),
and a duplicate direct registration fails. -/
theorem c2_shared_layer_at_most_one_witness :
    instantiate_layer ⟨"b", some "sid", 42⟩ 0
        ⟨[((0, "sid"), ⟨0, ⟨"a", some "sid", 42⟩, ⟨0, 1⟩⟩)], 2⟩ =
      some (0, ⟨[((0, "sid"), ⟨0, ⟨"a", some "sid", 42⟩, ⟨0, 1⟩⟩)], 2⟩) ∧
    set_shared_layer [((0, "sid"), ⟨5, ⟨"a", some "sid", 42⟩, ⟨5, 6⟩⟩)]
      0 "sid" ⟨9, 10⟩ ⟨"c", some "sid", 42⟩ = none := by
  have hc := c2_shared_layer_at_most_one 0 "sid"
    ⟨"a", some "sid", 42⟩ ⟨"b", some "sid", 42⟩ ⟨[], 0⟩
    rfl rfl rfl (by decide)
  refine ⟨?_, ?_⟩
  · exact hc.1 0 ⟨[((0, "sid"), ⟨0, ⟨"a", some "sid", 42⟩, ⟨0, 1⟩⟩)], 2⟩ rfl
  · exact hc.2 [] [((0, "sid"), ⟨5, ⟨"a", some "sid", 42⟩, ⟨5, 6⟩⟩)]
      ⟨5, 6⟩ ⟨9, 10⟩ ⟨"a", some "sid", 42⟩ ⟨"c", some "sid", 42⟩ rfl

/-- C9: a scoped `JaxContext` frame is popped on exit whether the enclosed
computation returns normally or raises: for any body that leaves the stack
as it found it, the `with` block returns with the stack restored to its
pre-entry state exactly, so `has_context()` afterwards reflects the
pre-entry state. -/
theorem c9_context_scoped_pop (c : Nat) (stack : List Nat)
    (body : List Nat → Bool × List Nat)
    (hbal : ∀ st, (body st).2 = st) :
    withContext c body stack =
      some ((body (enterContext c stack)).1, stack) ∧
    (∀ raised st', withContext c body stack = some (raised, st') →
      st' = stack ∧ has_context st' = has_context stack) := by
  have hx : exitContext c (body (enterContext c stack)).2 = some stack := by
    rw [hbal, enterContext, exitContext, if_pos rfl]
  have h1 : withContext c body stack =
      some ((body (enterContext c stack)).1, stack) := by
    simp only [withContext, hx]
  refine ⟨h1, fun raised st' h => ?_⟩
  rw [h1] at h
  simp only [Option.some.injEq, Prod.mk.injEq] at h
  exact ⟨h.2.symm, by rw [h.2]⟩

/-- Witness for C9: a normally-returning body and a raising body, each
leaving `has_context` and the stack exactly as before entry. -/
theorem c9_context_scoped_pop_witness :
    withContext 5 (fun st => (false, st)) [] = some (false, []) ∧
    withContext 5 (fun st => (true, st)) [7] = some (true, [7]) := by
  exact ⟨(c9_context_scoped_pop 5 [] (fun st => (false, st))
      (fun st => rfl)).1,
    (c9_context_scoped_pop 5 [7] (fun st => (true, st))
      (fun st => rfl)).1⟩

/-- C5 counterexample: the copy-down criterion is value-based, not
set-based.  A child that explicitly sets `dtype` to `jnp.float32` (the
default value) is still overwritten with the parent's `bfloat16` — the
claim's "fields the child set are untouched" fails at this input. -/
theorem c5_copy_overwrites_explicitly_set_default :
    (match create_child
        ⟨some DT.bfloat16, none, none, none, none, none, ⟨"gaussian", 10000000⟩⟩
        "c"
        (LayerTree.node "x"
          ⟨some DT.float32, none, none, none, none, none, default_param_init⟩
          []) with
      | LayerTree.node _ f _ => f.dtype) = some DT.bfloat16 ∧
    some DT.bfloat16 ≠ some DT.float32 := by
  constructor
  · rw [create_child.eq_def, copy_down_node]
    decide
  · decide

/-- C5 amended: `create_child` clones the child config, copies each base
field from parent to child when the child's field currently holds its
default/unset sentinel (dtype `float32`, the rest `None`; `params_init`
when it still holds the default initializer) — regardless of whether that
default was explicitly assigned — leaves non-default fields untouched,
sets the child's name, and recurses into nested config arguments with the
updated child as the new source while never crossing a
`DoNotBuild`-tagged boundary. -/
theorem c5_copy_base_hparams_amended (parent : BaseFields)
    (nm oldName : String) (f : BaseFields)
    (cs : List (String × Bool × LayerTree)) :
    create_child parent nm (LayerTree.node oldName f cs) =
      LayerTree.node nm (copy_base_hparams_fields parent f)
        (cs.map (fun c => if c.2.1 then c
          else (c.1, c.2.1,
            copy_down (copy_base_hparams_fields parent f) c.2.2))) ∧
    ((copy_base_hparams_fields parent f).dtypeVal =
      if f.dtypeVal = DT.float32 then parent.dtypeVal else f.dtypeVal) ∧
    ((copy_base_hparams_fields parent f).fpropDtype =
      if f.fpropDtype = none then parent.fpropDtype else f.fpropDtype) ∧
    ((copy_base_hparams_fields parent f).skipLp =
      if f.skipLp = none then parent.skipLp else f.skipLp) ∧
    ((copy_base_hparams_fields parent f).iciMesh =
      if f.iciMesh = none then parent.iciMesh else f.iciMesh) ∧
    ((copy_base_hparams_fields parent f).dcnMesh =
      if f.dcnMesh = none then parent.dcnMesh else f.dcnMesh) ∧
    ((copy_base_hparams_fields parent f).meshAxisNames =
      if f.meshAxisNames = none then parent.meshAxisNames
        else f.meshAxisNames) ∧
    ((copy_base_hparams_fields parent f).paramsInit =
      if is_default_param_init f.paramsInit then parent.paramsInit
        else f.paramsInit) := by
  refine ⟨?_, ?_, rfl, rfl, rfl, rfl, rfl, rfl⟩
  · rw [create_child.eq_def, copy_down_node]
  · show (if f.dtypeVal = DT.float32 then some parent.dtypeVal
        else f.dtype).getD DT.float32 =
      if f.dtypeVal = DT.float32 then parent.dtypeVal else f.dtypeVal
    by_cases hc : f.dtypeVal = DT.float32
    · rw [if_pos hc, if_pos hc, Option.getD_some]
    · rw [if_neg hc, if_neg hc]
      rfl

/-- C7: the claim's failing input, evaluated on both implementations.  The
layer path (`BaseLayer.add_summary`) scans `has_variable` with the
*unsuffixed* candidate, which never collides with the stored suffixed
keys, so a second scalar summary named `loss` overwrites `loss_scalar`
instead of creating `loss1_scalar`; the summary-dict path
(`_SummaryDict.add_summary`) scans the fully-suffixed name and produces
the claimed keys `loss_scalar` and `loss1_scalar`. -/
theorem c7_add_summary_key_divergence :
    layer_add_summary
        (layer_add_summary [] "loss".toList SummaryType.SCALAR 7)
        "loss".toList SummaryType.SCALAR 9 = [("loss_scalar".toList, 9)] ∧
    summary_dict_add
        (summary_dict_add [] "loss".toList SummaryType.SCALAR 7)
        "loss".toList SummaryType.SCALAR 9 =
      [("loss_scalar".toList, 7), ("loss1_scalar".toList, 9)] := by
  exact ⟨by decide, by decide⟩

/-- C8 counterexample: a variable tagged to disallow bfloat16 conversion
is still cast when `fprop_dtype` is `float16` (the guard requires
`fprop_dtype == jnp.bfloat16`), so the claim's "tagged variables are
returned uncast" fails at this input. -/
theorem c8_theta_tagged_still_cast :
    (theta_get ⟨false, [("w", ⟨DT.float32, 0⟩)],
        [("w", ⟨[DISALLOW_BFLOAT16_CONVERSION]⟩)], DT.float16⟩ "w").2 =
      Except.ok ⟨DT.float16, 0⟩ ∧
    (Except.ok (⟨DT.float16, 0⟩ : Tensor) : Except String Tensor) ≠
      Except.ok ⟨DT.float32, 0⟩ := by
  refine ⟨rfl, fun h => ?_⟩
  simp at h

/-- C8 amended: reading `theta` triggers setup, errors descriptively when
no trainable variable of the name exists, and otherwise returns the
stored tensor cast to `fprop_dtype` (floating dtypes only; non-floating
tensors unchanged) — except when `fprop_dtype` is `bfloat16` and the
variable is tagged to disallow bfloat16 conversion, in which case the raw
tensor is returned uncast. -/
theorem c8_theta_amended (m : ThetaModule) (k : String) :
    (theta_get m k).1 = try_setup m ∧
    (m.params.lookup k = none →
      (theta_get m k).2 =
        Except.error ("Module has no theta " ++ k ++ " defined.")) ∧
    (∀ v, m.params.lookup k = some v →
      ((m.fprop_dtype = DT.bfloat16 ∧ var_disallow_bfloat16_conversion
          ((m.weight_hparams.lookup k).getD ⟨[]⟩) = true) →
        (theta_get m k).2 = Except.ok v) ∧
      (¬ (m.fprop_dtype = DT.bfloat16 ∧ var_disallow_bfloat16_conversion
          ((m.weight_hparams.lookup k).getD ⟨[]⟩) = true) →
        (theta_get m k).2 =
          Except.ok (cast_to_fprop_dtype m.fprop_dtype v))) ∧
    (∀ x : Tensor, x.dtype.floating = false →
      cast_to_fprop_dtype m.fprop_dtype x = x) ∧
    (∀ x : Tensor, x.dtype.floating = true →
      (cast_to_fprop_dtype m.fprop_dtype x).dtype = m.fprop_dtype ∧
      (cast_to_fprop_dtype m.fprop_dtype x).uid = x.uid) := by
  refine ⟨?_, ?_, ?_, ?_, ?_⟩
  · rw [theta_get.eq_def]
    simp only [try_setup]
    cases hl : List.lookup k m.params
    · rfl
    · dsimp only
      split <;> rfl
  · intro hnone
    rw [theta_get.eq_def]
    simp only [try_setup]
    rw [hnone]
  · intro v hv
    constructor
    · intro hcond
      rw [theta_get.eq_def]
      simp only [try_setup]
      rw [hv]
      dsimp only
      split
      · rfl
      · next hc2 => exact absurd hcond hc2
    · intro hcond
      rw [theta_get.eq_def]
      simp only [try_setup]
      rw [hv]
      dsimp only
      split
      · next hc2 => exact absurd hc2 hcond
      · rfl
  · intro x hx
    rw [cast_to_fprop_dtype]
    rw [if_neg (by simp [hx])]
  · intro x hx
    rw [cast_to_fprop_dtype]
    by_cases he : m.fprop_dtype = x.dtype
    · rw [if_neg (by simp [he])]
      exact ⟨he.symm, rfl⟩
    · rw [if_pos ⟨he, hx⟩]
      exact ⟨rfl, rfl⟩

/-- Witness for C8 amended: an untagged `float32` variable under
`bfloat16` fprop dtype is returned cast; a missing name errors. -/
theorem c8_theta_amended_witness :
    (theta_get ⟨false, [("w", ⟨DT.float32, 0⟩)], [("w", ⟨[]⟩)],
        DT.bfloat16⟩ "w").2 =
      Except.ok (cast_to_fprop_dtype DT.bfloat16 ⟨DT.float32, 0⟩) ∧
    (theta_get ⟨false, [("w", ⟨DT.float32, 0⟩)], [("w", ⟨[]⟩)],
        DT.bfloat16⟩ "absent").2 =
      Except.error ("Module has no theta " ++ "absent" ++ " defined.") := by
  have h1 := c8_theta_amended
    ⟨false, [("w", ⟨DT.float32, 0⟩)], [("w", ⟨[]⟩)], DT.bfloat16⟩ "w"
  have h2 := c8_theta_amended
    ⟨false, [("w", ⟨DT.float32, 0⟩)], [("w", ⟨[]⟩)], DT.bfloat16⟩ "absent"
  exact ⟨(h1.2.2.1 ⟨DT.float32, 0⟩ (by rfl)).2 (by decide),
    h2.2.1 (by rfl)⟩

/-- C10: for every summary type `t` and base name `s` not itself ending in
a type suffix, parsing the suffixed key returns the base type of `t`
(aggregate variants resolve to their base kind) and trimming the suffixed
key returns `s`: suffixing and parse/trim round-trip up to the base
type. -/
theorem c10_summary_suffix_round_trip (t : SummaryType) (s : List Char)
    (_hs : ¬ ∃ t' ∈ SummaryType.members, typeSuffix t' <:+ s) :
    get_summary_type_from_key (s ++ get_summary_type_suffix t) =
      some (get_summary_base_type t) ∧
    trim_summary_type_from_key (s ++ get_summary_type_suffix t) = some s :=
  ⟨from_key_append_suffix t s, trim_append_suffix t s⟩

/-- Witness for C10 at `t = AGGREGATE_SCALAR`, `s = "loss"`. -/
theorem c10_summary_suffix_round_trip_witness :
    get_summary_type_from_key
        ("loss".toList ++ get_summary_type_suffix SummaryType.AGGREGATE_SCALAR) =
      some SummaryType.SCALAR ∧
    trim_summary_type_from_key
        ("loss".toList ++ get_summary_type_suffix SummaryType.AGGREGATE_SCALAR) =
      some "loss".toList :=
  c10_summary_suffix_round_trip SummaryType.AGGREGATE_SCALAR "loss".toList
    (by decide)

/-- C6 counterexample: a 0-D shape.  `if not shape` returns
`(None, None)` before the dead `len(shape) < 1` branch can return
`(1, 1)`, so the claim's "0-D shape → (1,1)" fails. -/
theorem c6_fan_zero_rank_counterexample :
    get_fan_in_fan_out [] none none = some (none, none) ∧
    get_fan_in_fan_out [] none none ≠ some (some 1, some 1) := by
  exact ⟨rfl, by decide⟩

/-- C6 amended: with default fan axes, a 0-D shape yields `(None, None)`
(not `(1,1)`); a 1-D shape `(d,)` yields `(d, d)`; and a shape of rank at
least two, written `pre ++ [a, b]`, yields fan-in `a` and fan-out `b`
each multiplied by the receptive-field product of all leading axes; in
particular shape (4,3) gives fan_in=4, fan_out=3 and shape (5,) gives
fan_in=fan_out=5. -/
theorem c6_fan_in_fan_out_amended :
    get_fan_in_fan_out [] none none = some (none, none) ∧
    (∀ d : Nat, get_fan_in_fan_out [d] none none = some (some d, some d)) ∧
    (∀ (pre : List Nat) (a b : Nat),
      get_fan_in_fan_out (pre ++ [a, b]) none none =
        some (some (a * pre.prod), some (b * pre.prod))) ∧
    get_fan_in_fan_out [4, 3] none none = some (some 4, some 3) ∧
    get_fan_in_fan_out [5] none none = some (some 5, some 5) ∧
    get_fan_in_fan_out [2, 3, 4, 5] none none = some (some 24, some 30) := by
  refine ⟨rfl, fun d => rfl, fun pre a b => ?_, by decide, rfl, by decide⟩
  have hne : pre ++ [a, b] ≠ [] := by simp
  have hlen : (pre ++ [a, b]).length = pre.length + 2 := by simp
  have hrf : prodAxes (pre ++ [a, b])
      ((List.range pre.length).map Int.ofNat) = some pre.prod := by
    have ht : (pre ++ [a, b]).take pre.length = pre := List.take_left pre [a, b]
    have hp := prodAxes_range (pre ++ [a, b]) pre.length (by rw [hlen]; omega)
    rw [ht] at hp
    exact hp
  have h2 := pyGet_concat_two pre a b
  have hfi : prodAxes (pre ++ [a, b]) [(-2 : Int)] = some (a * 1) := by
    rw [prodAxes, h2.1]
    rfl
  have hfo : prodAxes (pre ++ [a, b]) [(-1 : Int)] = some (b * 1) := by
    rw [prodAxes, h2.2]
    rfl
  rw [get_fan_in_fan_out.eq_def, if_neg hne]
  simp only [hlen, Nat.add_sub_cancel]
  rw [if_neg (by omega)]
  simp only [hrf, hfi, hfo, Nat.mul_one]

end Praxis
